import Mathlib

/-!
Verification of the IfcLCA-Py analysis/optioneering core against its
natural-language specification.

The repository's checked-in Python sources (`check_materials.py`,
`examples/comprehensive_example.py`) are example drivers calling the core
library (`IfcLCA`, `IfcLCAAnalysis`, `IfcLCAOptioneering`, database readers);
the core itself is not part of the checked-in sources.  Every definition below
whose doc comment starts with `Modelled from the spec:` is therefore a shallow
embedding of the corresponding component as the specification describes it
(material discovery, auto-mapping, the analysis engine, the optioneering
engine).  Numeric quantities are embedded as rationals; keyed collections
(mappings, databases, per-indicator totals) are embedded as association lists.
-/

namespace LCA

/-- Kind of a physical quantity carried by an element (canonical units m³/m²/m). -/
inductive QKind where
  | volume
  | area
  | length
deriving DecidableEq, Repr

/-- A quantity: a kind plus a numeric magnitude in the canonical unit. -/
structure Quantity where
  kind : QKind
  magnitude : ℚ
deriving DecidableEq, Repr

/-- Modelled from the spec: the three recognized material-association kinds of
an element — single direct material, layered construction (ordered
(material, thickness) layers), and material-constituent set (weighted
sub-materials). -/
inductive MaterialAssoc where
  | direct (material : String)
  | layered (layers : List (String × ℚ))
  | constituent (parts : List (String × ℚ))
deriving DecidableEq, Repr

/-- Modelled from the spec: one physical building component, read-only to the
core: identifier, element type, material association, and its total quantity. -/
structure Element where
  id : String
  etype : String
  assoc : MaterialAssoc
  quantity : Quantity
deriving DecidableEq, Repr

/-- Modelled from the spec: the model collaborator — an enumerable element
list plus a flag for whether the required schema/material capability is
present (its absence is what raises `ModelAccessError`). -/
structure Model where
  accessible : Bool
  elements : List Element
deriving DecidableEq, Repr

/-- Reference unit a database entry's impact factors are expressed per. -/
inductive RefUnit where
  | mass
  | volume
  | area
  | length
deriving DecidableEq, Repr

/-- Modelled from the spec: one environmental-impact record: identifier,
display name, optional density (for volume→mass conversion), the reference
unit of its factors, and indicator → impact factor per reference unit. -/
structure DatabaseEntry where
  id : String
  name : String
  density : Option ℚ
  unit : RefUnit
  factors : List (String × ℚ)
deriving DecidableEq, Repr

/-- Modelled from the spec: the database collaborator — a keyed entry list
plus an availability flag (its absence is fatal to an analysis call). -/
structure Database where
  available : Bool
  entries : List DatabaseEntry
deriving DecidableEq, Repr

/-- Modelled from the spec: a discovered material: name, usage count (number
of elements referencing it), association type observed first, and the element
types it appears in. -/
structure MaterialRecord where
  name : String
  elements : Nat
  type : String
  elementTypes : List String
deriving DecidableEq, Repr

/-- A material-name → database-identifier mapping, as an association list. -/
abbrev Mapping := List (String × String)

/-- First-match lookup in a string-keyed association list. -/
def lookupId : List (String × String) → String → Option String
  | [], _ => none
  | (k', v) :: rest, k => if k' = k then some v else lookupId rest k

/-- Keyed lookup of a database entry by identifier (`get_material_data`). -/
def lookupEntry : List DatabaseEntry → String → Option DatabaseEntry
  | [], _ => none
  | e :: rest, i => if e.id = i then some e else lookupEntry rest i

/-- Lower-cased character list of a string, the case-insensitive comparison key. -/
def lowerName (s : String) : List Char := s.data.map Char.toLower

/-- Sum of the values recorded for key `k` in an indicator/amount list
(0 when absent; lists built by `addAmount` hold each key once). -/
def getAmount : List (String × ℚ) → String → ℚ
  | [], _ => 0
  | (k', v) :: rest, k => (if k' = k then v else 0) + getAmount rest k

/-- Add `v` to key `k`'s accumulated amount, inserting the key if absent. -/
def addAmount : List (String × ℚ) → String → ℚ → List (String × ℚ)
  | [], k, v => [(k, v)]
  | (k', v') :: rest, k, v =>
      if k' = k then (k', v' + v) :: rest else (k', v') :: addAmount rest k v

/-- Add `v` to material `m`'s amount for indicator `i` in a nested
material → (indicator → amount) accumulator. -/
def addNested : List (String × List (String × ℚ)) → String → String → ℚ →
    List (String × List (String × ℚ))
  | [], m, i, v => [(m, [(i, v)])]
  | (m', fs) :: rest, m, i, v =>
      if m' = m then (m', addAmount fs i v) :: rest
      else (m', fs) :: addNested rest m i v

/-- Sum over all materials of the material's recorded amount for indicator `i`. -/
def sumPerMaterial (pm : List (String × List (String × ℚ))) (i : String) : ℚ :=
  (pm.map (fun p => getAmount p.2 i)).sum

/-- Modelled from the spec: the fatal error taxonomy — model collaborator
missing a required capability, or database collaborator unavailable. -/
inductive FatalError where
  | modelAccessError
  | databaseUnavailable
deriving DecidableEq, Repr

/-! ## Material Discoverer -/

/-- Material names referenced by one association, in association order. -/
def assocMaterialNames : MaterialAssoc → List String
  | .direct m => [m]
  | .layered layers => layers.map Prod.fst
  | .constituent parts => parts.map Prod.fst

/-- The association-type tag recorded on a discovered material. -/
def assocTypeName : MaterialAssoc → String
  | .direct _ => "direct"
  | .layered _ => "layered"
  | .constituent _ => "constituent"

/-- Distinct material names referenced by one element: one (element, material)
contributing pair per listed name. -/
def elementMaterials (e : Element) : List String :=
  (assocMaterialNames e.assoc).dedup

/-- All (material name, association type, element type) occurrences in a model,
one per (element, material) contributing pair. -/
def materialOccurrences (elements : List Element) : List (String × String × String) :=
  (elements.map (fun e =>
    (elementMaterials e).map (fun m => (m, assocTypeName e.assoc, e.etype)))).flatten

/-- Record one (element, material) occurrence: bump the usage count of an
existing record (first occurrence fixed its association type) or append a
fresh record. -/
def addMaterialOccurrence : List MaterialRecord → String × String × String →
    List MaterialRecord
  | [], occ => [⟨occ.1, 1, occ.2.1, [occ.2.2]⟩]
  | r :: rest, occ =>
      if r.name = occ.1 then
        { r with elements := r.elements + 1,
                 elementTypes :=
                   if occ.2.2 ∈ r.elementTypes then r.elementTypes
                   else r.elementTypes ++ [occ.2.2] } :: rest
      else r :: addMaterialOccurrence rest occ

/-- Unsorted de-duplicated material inventory of a model. -/
def discoverRecords (elements : List Element) : List MaterialRecord :=
  (materialOccurrences elements).foldl addMaterialOccurrence []

/-- Case-insensitive name order on discovered records. -/
def recLe (a b : MaterialRecord) : Prop :=
  lowerName a.name ≤ lowerName b.name

instance : DecidableRel recLe := fun a b =>
  inferInstanceAs (Decidable (lowerName a.name ≤ lowerName b.name))

instance : IsTotal MaterialRecord recLe :=
  ⟨fun a b => le_total (lowerName a.name) (lowerName b.name)⟩

instance : IsTrans MaterialRecord recLe :=
  ⟨fun _ _ _ hab hbc => le_trans hab hbc⟩

/-- Modelled from the spec: `discover_materials` — scan every element's
material association, aggregate usage counts per distinct material, and return
the records sorted by material name case-insensitively. -/
def discover_materials (elements : List Element) : List MaterialRecord :=
  (discoverRecords elements).insertionSort recLe

/-- Number of (element, material) contributing pairs in a model, by direct
inspection: each element contributes one pair per distinct material it
references. -/
def numContributingPairs (elements : List Element) : Nat :=
  (elements.map (fun e => (elementMaterials e).length)).sum

/-- Modelled from the spec: discovery on the model collaborator, raising
`ModelAccessError` when the required schema support is missing. -/
def discoverMaterialsE (m : Model) : Except FatalError (List MaterialRecord) :=
  if m.accessible then .ok (discover_materials m.elements)
  else .error .modelAccessError

/-- Modelled from the spec: the `IfcLCA` entry point, holding the model and an
optional database reader (the database argument defaults to absent). -/
structure IfcLCA where
  model : Model
  database : Option Database
deriving DecidableEq

/-- The one-argument `IfcLCA(ifc)` construction: model alone, no database. -/
def IfcLCA.ofModel (m : Model) : IfcLCA := ⟨m, none⟩

/-- Discovery through the entry point; independent of the optional database. -/
def IfcLCA.discoverMaterials (l : IfcLCA) : Except FatalError (List MaterialRecord) :=
  discoverMaterialsE l.model

/-- The per-material line printed by `check_materials.py`:
name, usage count and association type of one record. -/
def describeMaterial (r : MaterialRecord) : String :=
  r.name ++ ": " ++ toString r.elements ++ " elements, type: " ++ r.type

/-! ## Material Mapper -/

/-- A unique best match: exactly one candidate wins, ties leave unmapped. -/
def uniqueMatch : List DatabaseEntry → Option String
  | [e] => some e.id
  | _ => none

/-- Whether `n` occurs as a contiguous run inside `hay`. -/
def infixCheck (n : List Char) : List Char → Bool
  | [] => n.isEmpty
  | c :: t => n.isPrefixOf (c :: t) || infixCheck n t

/-- Exact case-insensitive name matcher: database entries whose display name
equals the material name up to case; a unique candidate wins. -/
def exactMatcher (db : List DatabaseEntry) (name : String) : Option String :=
  uniqueMatch (db.filter (fun e => lowerName e.name == lowerName name))

/-- Substring similarity used by the fuzzy matcher: either lowered name
contains the other. -/
def similarNames (a b : String) : Bool :=
  infixCheck (lowerName a) (lowerName b) || infixCheck (lowerName b) (lowerName a)

/-- Fuzzy matcher: substring-overlap candidates; a unique candidate wins,
ties or no overlap leave the material unmapped. -/
def fuzzyMatcher (db : List DatabaseEntry) (name : String) : Option String :=
  uniqueMatch (db.filter (fun e => similarNames e.name name))

/-- Modelled from the spec: the known synonym table (e.g. "Beton" → concrete). -/
def synonymTable : List (String × String) :=
  [("beton", "concrete"), ("holz", "timber"), ("stahl", "steel"), ("ziegel", "brick")]

/-- Synonym matcher: translate the lowered name through the synonym table and
look for a unique database entry containing the canonical term. -/
def synonymMatcher (db : List DatabaseEntry) (name : String) : Option String :=
  match lookupId synonymTable (String.mk (lowerName name)) with
  | none => none
  | some canon =>
      uniqueMatch (db.filter (fun e => infixCheck canon.data (lowerName e.name)))

/-- Modelled from the spec: the ordered matcher chain — exact case-insensitive
match, then substring overlap, then synonym table — composed via first
success; anything else leaves the material unmapped. -/
def matchMaterial (db : List DatabaseEntry) (name : String) : Option String :=
  match exactMatcher db name with
  | some i => some i
  | none =>
      match fuzzyMatcher db name with
      | some i => some i
      | none => synonymMatcher db name

/-- Modelled from the spec: `auto_map_materials` — map each discovered
material through the matcher chain; unmapped materials are omitted from the
returned mapping, never bound to a placeholder. -/
def auto_map_materials (materials : List MaterialRecord) (db : List DatabaseEntry) :
    Mapping :=
  materials.filterMap (fun m => (matchMaterial db m.name).map (fun i => (m.name, i)))

/-- The inputs visible to one `auto_map_materials` invocation, threaded
explicitly so that absence of mutation is a stated property. -/
structure MapperState where
  materials : List MaterialRecord
  database : List DatabaseEntry
deriving DecidableEq

/-- One `auto_map_materials` call: returns the mapping and the (unchanged)
caller-visible state. -/
def autoMapCall (s : MapperState) : Mapping × MapperState :=
  (auto_map_materials s.materials s.database, s)

/-! ## Analysis Engine -/

/-- Errors of quantity normalization: volume→mass conversion impossible
(missing/zero density), or the entry is not defined in the quantity's unit. -/
inductive NormError where
  | unitConversionError
  | unitMismatch
deriving DecidableEq, Repr

/-- Modelled from the spec: normalize an element quantity to the unit the
matched entry's factors expect.  Per-mass factors with a volume quantity
convert through the entry's density (`UnitConversionError` when the density is
missing or zero); area/length quantities pass through only when the entry is
defined in that unit; everything else is a unit mismatch. -/
def normalizeQuantity (entry : DatabaseEntry) (kind : QKind) (q : ℚ) :
    Except NormError ℚ :=
  match entry.unit, kind with
  | .mass, .volume =>
      match entry.density with
      | none => .error .unitConversionError
      | some d => if d = 0 then .error .unitConversionError else .ok (q * d)
  | .volume, .volume => .ok q
  | .area, .area => .ok q
  | .length, .length => .ok q
  | _, _ => .error .unitMismatch

/-- Total declared share of an association (layer thicknesses or constituent
fractions; 1 for a direct material). -/
def totalShare : MaterialAssoc → ℚ
  | .direct _ => 1
  | .layered layers => (layers.map Prod.snd).sum
  | .constituent parts => (parts.map Prod.snd).sum

/-- Whether an association subdivides the element (layered or constituent). -/
def isSubdivided : MaterialAssoc → Bool
  | .direct _ => false
  | .layered _ => true
  | .constituent _ => true

/-- Modelled from the spec: the shared resolution of an association into
(material, weight) pairs; layered/constituent sub-materials are weighted by
their share of the parent element's total quantity. -/
def assocWeights : MaterialAssoc → List (String × ℚ)
  | .direct m => [(m, 1)]
  | .layered layers =>
      if (layers.map Prod.snd).sum = 0 then []
      else layers.map (fun p => (p.1, p.2 / (layers.map Prod.snd).sum))
  | .constituent parts =>
      if (parts.map Prod.snd).sum = 0 then []
      else parts.map (fun p => (p.1, p.2 / (parts.map Prod.snd).sum))

/-- Running accumulator of one analysis: per-material quantities, nested
per-material per-indicator impacts, global per-indicator totals, and the
pair-level coverage counters (contributing, skipped by reason). -/
structure AnalysisState where
  perMaterialQty : List (String × ℚ)
  perMaterialImpacts : List (String × List (String × ℚ))
  totals : List (String × ℚ)
  contributing : Nat
  skippedUnmapped : Nat
  skippedDatabaseMiss : Nat
  skippedUnitMismatch : Nat
  skippedMissingDensity : Nat
deriving DecidableEq, Repr

/-- The empty accumulator each `run_analysis` call starts from. -/
def initialState : AnalysisState := ⟨[], [], [], 0, 0, 0, 0, 0⟩

/-- Accumulate `q × factor` for every indicator factor of the matched entry
into the per-material accumulator and the global totals together. -/
def accumulateFactors (mat : String) (q : ℚ) (factors : List (String × ℚ))
    (pm : List (String × List (String × ℚ))) (t : List (String × ℚ)) :
    List (String × List (String × ℚ)) × List (String × ℚ) :=
  factors.foldl
    (fun acc f => (addNested acc.1 mat f.1 (q * f.2), addAmount acc.2 f.1 (q * f.2)))
    (pm, t)

/-- Modelled from the spec: process one resolved (material, weight) pair of an
element — unmapped material, database miss, and unit failures are recorded as
the matching skip counter; otherwise the normalized quantity is multiplied by
every indicator factor and accumulated. -/
def processPair (mapping : Mapping) (db : List DatabaseEntry) (quantity : Quantity)
    (st : AnalysisState) (pair : String × ℚ) : AnalysisState :=
  match lookupId mapping pair.1 with
  | none => { st with skippedUnmapped := st.skippedUnmapped + 1 }
  | some dbId =>
      match lookupEntry db dbId with
      | none => { st with skippedDatabaseMiss := st.skippedDatabaseMiss + 1 }
      | some entry =>
          match normalizeQuantity entry quantity.kind (pair.2 * quantity.magnitude) with
          | .error .unitMismatch =>
              { st with skippedUnitMismatch := st.skippedUnitMismatch + 1 }
          | .error .unitConversionError =>
              { st with skippedMissingDensity := st.skippedMissingDensity + 1 }
          | .ok q =>
              let acc := accumulateFactors pair.1 q entry.factors
                st.perMaterialImpacts st.totals
              { st with
                  contributing := st.contributing + 1,
                  perMaterialQty := addAmount st.perMaterialQty pair.1 q,
                  perMaterialImpacts := acc.1,
                  totals := acc.2 }

/-- Process one element: resolve it through the shared association logic and
process each (material, weight) pair against its total quantity. -/
def processElement (mapping : Mapping) (db : List DatabaseEntry)
    (st : AnalysisState) (e : Element) : AnalysisState :=
  (assocWeights e.assoc).foldl (processPair mapping db e.quantity) st

/-- Modelled from the spec: one computed analysis run — the mapping used,
per-material aggregates, global per-indicator totals, and coverage counts. -/
structure AnalysisResult where
  mapping : Mapping
  perMaterialQty : List (String × ℚ)
  perMaterialImpacts : List (String × List (String × ℚ))
  totals : List (String × ℚ)
  contributing : Nat
  skippedUnmapped : Nat
  skippedDatabaseMiss : Nat
  skippedUnitMismatch : Nat
  skippedMissingDensity : Nat
  totalElements : Nat
deriving DecidableEq, Repr

/-- Modelled from the spec: `run_analysis` — fold every element through the
shared resolution, normalization and accumulation logic, producing the
immutable analysis result. -/
def run_analysis (elements : List Element) (mapping : Mapping)
    (db : List DatabaseEntry) : AnalysisResult :=
  let st := elements.foldl (processElement mapping db) initialState
  ⟨mapping, st.perMaterialQty, st.perMaterialImpacts, st.totals, st.contributing,
    st.skippedUnmapped, st.skippedDatabaseMiss, st.skippedUnitMismatch,
    st.skippedMissingDensity, elements.length⟩

/-- Number of resolved (material, weight) pairs the analysis processes. -/
def analysisPairCount (elements : List Element) : Nat :=
  (elements.map (fun e => (assocWeights e.assoc).length)).sum

/-- Modelled from the spec: the fallible analysis entry — an inaccessible
model or unavailable database aborts the call; nothing else does. -/
def runAnalysisE (model : Model) (mapping : Mapping) (db : Database) :
    Except FatalError AnalysisResult :=
  if model.accessible then
    if db.available then .ok (run_analysis model.elements mapping db.entries)
    else .error .databaseUnavailable
  else .error .modelAccessError

/-! ## Optioneering Engine -/

/-- Modelled from the spec: a substitution rule — name, description, and a
partial material-name → replacement-identifier override of a mapping. -/
structure SubstitutionRule where
  name : String
  description : String
  substitutions : List (String × String)
deriving DecidableEq, Repr

/-- Modelled from the spec: a material comparison — one material checked
against a list of alternative database identifiers, under a comparison name. -/
structure MaterialComparison where
  material : String
  alternatives : List String
  name : String
deriving DecidableEq, Repr

/-- One scenario to evaluate: its display name and its overrides. -/
structure Scenario where
  name : String
  substitutions : List (String × String)
deriving DecidableEq, Repr

/-- Replace key `k`'s binding (appending the binding when the key is new). -/
def setKey : Mapping → String → String → Mapping
  | [], k, v => [(k, v)]
  | (k', v') :: rest, k, v =>
      if k' = k then (k', v) :: rest else (k', v') :: setKey rest k v

/-- Modelled from the spec: the scenario mapping — the baseline with the
rule's overrides applied; override keys replace, all other baseline keys
are retained. -/
def applyOverrides (base : Mapping) (subs : List (String × String)) : Mapping :=
  subs.foldl (fun m p => setKey m p.1 p.2) base

/-- The scenario derived from one substitution rule. -/
def ruleScenario (r : SubstitutionRule) : Scenario :=
  ⟨r.name, r.substitutions⟩

/-- Modelled from the spec: a material comparison expands into one implicit
single-substitution scenario per alternative, named deterministically from the
comparison name and the alternative identifier. -/
def comparisonScenarios (c : MaterialComparison) : List Scenario :=
  c.alternatives.map (fun alt => ⟨c.name ++ ": " ++ alt, [(c.material, alt)]⟩)

/-- Scenario-granularity failure: a substitution target identifier absent
from the database. -/
inductive ScenarioError where
  | databaseMiss (id : String)
deriving DecidableEq, Repr

/-- Outcome of one scenario: a successful analysis with its per-indicator
deltas against the baseline, or a recorded failure reason. -/
inductive ScenarioOutcome where
  | success (result : AnalysisResult) (deltas : List (String × ℚ))
  | failure (reason : ScenarioError)
deriving DecidableEq, Repr

/-- Whether an outcome is a successful analysis. -/
def ScenarioOutcome.isSuccess : ScenarioOutcome → Bool
  | .success _ _ => true
  | .failure _ => false

/-- Modelled from the spec: a named ScenarioResult with its outcome. -/
structure ScenarioResult where
  name : String
  outcome : ScenarioOutcome
deriving DecidableEq, Repr

/-- Signed per-indicator deltas (scenario − baseline) over every indicator
named by either totals list. -/
def deltaList (scen base : List (String × ℚ)) : List (String × ℚ) :=
  ((scen.map Prod.fst) ++ (base.map Prod.fst)).dedup.map
    (fun i => (i, getAmount scen i - getAmount base i))

/-- Modelled from the spec: evaluate one scenario — a substitution target
absent from the database is a `DatabaseMissError` recorded for this scenario
alone; otherwise the Analysis Engine is re-invoked on the scenario mapping and
the signed deltas against the baseline totals are computed. -/
def evalScenario (model : List Element) (db : List DatabaseEntry) (base : Mapping)
    (baseTotals : List (String × ℚ)) (sc : Scenario) : ScenarioResult :=
  match sc.substitutions.find? (fun p => (lookupEntry db p.2).isNone) with
  | some p => ⟨sc.name, .failure (.databaseMiss p.2)⟩
  | none =>
      let res := run_analysis model (applyOverrides base sc.substitutions) db
      ⟨sc.name, .success res (deltaList res.totals baseTotals)⟩

/-- Modelled from the spec: the Optioneering Engine, holding the model, the
database, the baseline mapping, and the rules/comparisons added so far. -/
structure IfcLCAOptioneering where
  model : List Element
  database : List DatabaseEntry
  baseline : Mapping
  rules : List SubstitutionRule
  comparisons : List MaterialComparison
deriving DecidableEq, Repr

/-- The `IfcLCAOptioneering(model, database, mapping)` construction: the three
collaborator arguments only, with no rules or comparisons yet. -/
def IfcLCAOptioneering.init (model : List Element) (db : List DatabaseEntry)
    (base : Mapping) : IfcLCAOptioneering :=
  ⟨model, db, base, [], []⟩

/-- Modelled from the spec: `add_substitution_rule` appends one rule. -/
def add_substitution_rule (o : IfcLCAOptioneering) (r : SubstitutionRule) :
    IfcLCAOptioneering :=
  { o with rules := o.rules ++ [r] }

/-- Modelled from the spec: `add_material_comparison` appends one comparison. -/
def add_material_comparison (o : IfcLCAOptioneering) (material : String)
    (alternatives : List String) (name : String) : IfcLCAOptioneering :=
  { o with comparisons := o.comparisons ++ [⟨material, alternatives, name⟩] }

/-- All scenarios of the engine, in insertion order: rules first, then the
expanded comparisons. -/
def scenariosOf (o : IfcLCAOptioneering) : List Scenario :=
  o.rules.map ruleScenario ++ (o.comparisons.map comparisonScenarios).flatten

/-- The baseline analysis the engine recomputes internally for its deltas. -/
def IfcLCAOptioneering.baselineResult (o : IfcLCAOptioneering) : AnalysisResult :=
  run_analysis o.model o.baseline o.database

/-- Evaluate a list of scenarios against shared read-only baseline data. -/
def runScenarios (model : List Element) (db : List DatabaseEntry) (base : Mapping)
    (baseTotals : List (String × ℚ)) (scs : List Scenario) : List ScenarioResult :=
  scs.map (evalScenario model db base baseTotals)

/-- Modelled from the spec: `run()` — re-invoke the Analysis Engine once per
scenario mapping in insertion order and compute each scenario's signed deltas
against the internally recomputed baseline result. -/
def IfcLCAOptioneering.run (o : IfcLCAOptioneering) : List ScenarioResult :=
  runScenarios o.model o.database o.baseline o.baselineResult.totals (scenariosOf o)

/-! ## Helper lemmas -/

/-- A predicate preserved by every step of a fold is preserved by the fold. -/
theorem foldl_preserve {σ α : Type} (P : σ → Prop) (f : σ → α → σ)
    (h : ∀ s a, P s → P (f s a)) :
    ∀ (l : List α) (s : σ), P s → P (l.foldl f s) := by
  intro l
  induction l with
  | nil => intro s hs; simpa using hs
  | cons a as ih => intro s hs; rw [List.foldl_cons]; exact ih _ (h s a hs)

/-- Reading after `addAmount`: the addressed key gains `v`, others unchanged. -/
theorem getAmount_addAmount : ∀ (l : List (String × ℚ)) (k k' : String) (v : ℚ),
    getAmount (addAmount l k v) k' = getAmount l k' + (if k = k' then v else 0)
  | [], k, k', v => by
      simp [addAmount, getAmount]
  | (a, b) :: rest, k, k', v => by
      by_cases h : a = k
      · subst h
        simp only [addAmount, if_pos rfl, getAmount]
        split_ifs <;> ring
      · simp only [addAmount, if_neg h, getAmount, getAmount_addAmount rest k k' v]
        ring

/-- Summing per-material amounts after `addNested`: the addressed indicator
gains `v` in the material sum, others unchanged. -/
theorem sumPerMaterial_addNested :
    ∀ (pm : List (String × List (String × ℚ))) (m i : String) (v : ℚ) (i' : String),
    sumPerMaterial (addNested pm m i v) i' = sumPerMaterial pm i' + (if i = i' then v else 0)
  | [], m, i, v, i' => by
      simp [addNested, sumPerMaterial, getAmount]
  | (m', fs) :: rest, m, i, v, i' => by
      by_cases h : m' = m
      · simp only [addNested, if_pos h, sumPerMaterial, List.map_cons, List.sum_cons,
          getAmount_addAmount]
        ring
      · have ih := sumPerMaterial_addNested rest m i v i'
        simp only [addNested, if_neg h, sumPerMaterial, List.map_cons, List.sum_cons] at ih ⊢
        rw [ih]; ring

/-- The global totals list tracks the per-material accumulator: every
indicator's total equals its sum over materials. -/
def Tracks (pm : List (String × List (String × ℚ))) (t : List (String × ℚ)) : Prop :=
  ∀ i, getAmount t i = sumPerMaterial pm i

/-- `accumulateFactors` updates the per-material accumulator and the global
totals in lock-step. -/
theorem tracks_accumulateFactors (mat : String) (q : ℚ) (factors : List (String × ℚ)) :
    ∀ pm t, Tracks pm t →
      Tracks (accumulateFactors mat q factors pm t).1 (accumulateFactors mat q factors pm t).2 := by
  intro pm t h
  have key := foldl_preserve
    (fun p : List (String × List (String × ℚ)) × List (String × ℚ) => Tracks p.1 p.2)
    (fun acc f => (addNested acc.1 mat f.1 (q * f.2), addAmount acc.2 f.1 (q * f.2)))
    (fun p f hp => by
      intro i
      simp only [getAmount_addAmount, sumPerMaterial_addNested, hp i])
    factors (pm, t) h
  exact key

/-- Skip branches leave the accumulators alone and the contributing branch
updates both in lock-step, so `processPair` preserves tracking. -/
theorem tracks_processPair (mapping : Mapping) (db : List DatabaseEntry)
    (quantity : Quantity) (st : AnalysisState) (pair : String × ℚ)
    (h : Tracks st.perMaterialImpacts st.totals) :
    Tracks (processPair mapping db quantity st pair).perMaterialImpacts
      (processPair mapping db quantity st pair).totals := by
  cases h1 : lookupId mapping pair.1 with
  | none =>
      simp only [processPair, h1]
      exact h
  | some dbId =>
      cases h2 : lookupEntry db dbId with
      | none =>
          simp only [processPair, h1, h2]
          exact h
      | some entry =>
          cases h3 : normalizeQuantity entry quantity.kind (pair.2 * quantity.magnitude) with
          | error e =>
              cases e <;> simp only [processPair, h1, h2, h3] <;> exact h
          | ok q =>
              simp only [processPair, h1, h2, h3]
              exact tracks_accumulateFactors pair.1 q entry.factors _ _ h

/-- `processElement` preserves tracking. -/
theorem tracks_processElement (mapping : Mapping) (db : List DatabaseEntry)
    (st : AnalysisState) (e : Element)
    (h : Tracks st.perMaterialImpacts st.totals) :
    Tracks (processElement mapping db st e).perMaterialImpacts
      (processElement mapping db st e).totals := by
  unfold processElement
  exact foldl_preserve (fun s : AnalysisState => Tracks s.perMaterialImpacts s.totals)
    (processPair mapping db e.quantity)
    (fun s p hp => tracks_processPair mapping db e.quantity s p hp)
    (assocWeights e.assoc) st h

/-- Total number of pairs the analysis has accounted for so far:
contributing plus every skip counter. -/
def processedCount (st : AnalysisState) : Nat :=
  st.contributing + st.skippedUnmapped + st.skippedDatabaseMiss +
    st.skippedUnitMismatch + st.skippedMissingDensity

/-- Every branch of `processPair` accounts for exactly one pair. -/
theorem processedCount_processPair (mapping : Mapping) (db : List DatabaseEntry)
    (quantity : Quantity) (st : AnalysisState) (pair : String × ℚ) :
    processedCount (processPair mapping db quantity st pair) = processedCount st + 1 := by
  cases h1 : lookupId mapping pair.1 with
  | none =>
      simp only [processPair, h1, processedCount]
      omega
  | some dbId =>
      cases h2 : lookupEntry db dbId with
      | none =>
          simp only [processPair, h1, h2, processedCount]
          omega
      | some entry =>
          cases h3 : normalizeQuantity entry quantity.kind (pair.2 * quantity.magnitude) with
          | error e =>
              cases e <;> simp only [processPair, h1, h2, h3, processedCount] <;> omega
          | ok q =>
              simp only [processPair, h1, h2, h3, processedCount]
              omega

/-- `processElement` accounts for exactly one pair per resolved weight. -/
theorem processedCount_processElement (mapping : Mapping) (db : List DatabaseEntry)
    (st : AnalysisState) (e : Element) :
    processedCount (processElement mapping db st e)
      = processedCount st + (assocWeights e.assoc).length := by
  unfold processElement
  generalize assocWeights e.assoc = ps
  induction ps generalizing st with
  | nil => simp
  | cons p ps ih =>
      rw [List.foldl_cons, List.length_cons, ih, processedCount_processPair]
      omega

/-- Folding a list of elements accounts for exactly the resolved pair count. -/
theorem processedCount_foldl (mapping : Mapping) (db : List DatabaseEntry) :
    ∀ (elements : List Element) (st : AnalysisState),
    processedCount (elements.foldl (processElement mapping db) st)
      = processedCount st + analysisPairCount elements := by
  intro elements
  induction elements with
  | nil => intro st; simp [analysisPairCount]
  | cons e es ih =>
      intro st
      rw [List.foldl_cons, ih, processedCount_processElement]
      simp only [analysisPairCount, List.map_cons, List.sum_cons]
      omega

/-- Sum of the usage counts of a record list. -/
def countsSum (recs : List MaterialRecord) : Nat :=
  (recs.map MaterialRecord.elements).sum

/-- Recording one occurrence raises the total usage count by exactly one. -/
theorem countsSum_addOccurrence :
    ∀ (recs : List MaterialRecord) (occ : String × String × String),
    countsSum (addMaterialOccurrence recs occ) = countsSum recs + 1
  | [], occ => by simp [addMaterialOccurrence, countsSum]
  | r :: rest, occ => by
      by_cases h : r.name = occ.1
      · simp only [addMaterialOccurrence, if_pos h, countsSum, List.map_cons, List.sum_cons]
        omega
      · have ih := countsSum_addOccurrence rest occ
        simp only [addMaterialOccurrence, if_neg h, countsSum, List.map_cons,
          List.sum_cons] at ih ⊢
        omega

/-- Folding occurrences raises the total usage count by their number. -/
theorem countsSum_foldOccurrences :
    ∀ (occs : List (String × String × String)) (recs : List MaterialRecord),
    countsSum (occs.foldl addMaterialOccurrence recs) = countsSum recs + occs.length := by
  intro occs
  induction occs with
  | nil => intro recs; simp
  | cons o os ih =>
      intro recs
      rw [List.foldl_cons, ih, countsSum_addOccurrence]
      simp only [List.length_cons]
      omega

/-- There are exactly as many material occurrences as contributing pairs. -/
theorem materialOccurrences_length (elements : List Element) :
    (materialOccurrences elements).length = numContributingPairs elements := by
  simp only [materialOccurrences, numContributingPairs, List.length_flatten, List.map_map]
  have hfun : (List.length ∘ fun e =>
      List.map (fun m => (m, assocTypeName e.assoc, e.etype)) (elementMaterials e))
      = fun e => (elementMaterials e).length := by
    funext e
    simp
  rw [hfun]

/-- The sorted discovery output carries usage counts summing to the number of
(element, material) contributing pairs. -/
theorem countsSum_discover (elements : List Element) :
    countsSum (discover_materials elements) = numContributingPairs elements := by
  have hperm : countsSum (discover_materials elements) = countsSum (discoverRecords elements) := by
    unfold countsSum
    exact ((List.perm_insertionSort recLe (discoverRecords elements)).map
      MaterialRecord.elements).sum_eq
  rw [hperm]
  unfold discoverRecords
  rw [countsSum_foldOccurrences, materialOccurrences_length]
  simp [countsSum]

/-- The discovery output is sorted by material name, case-insensitively. -/
theorem discover_materials_sorted (elements : List Element) :
    List.Sorted recLe (discover_materials elements) :=
  List.sorted_insertionSort recLe (discoverRecords elements)

/-- Normalized weights of a nonzero-total share list sum to one. -/
theorem weighted_share_sum (ps : List (String × ℚ))
    (h : (ps.map Prod.snd).sum ≠ 0) :
    ((ps.map (fun p => (p.1, p.2 / (ps.map Prod.snd).sum))).map Prod.snd).sum = 1 := by
  rw [List.map_map]
  have hfun : (Prod.snd ∘ fun p : String × ℚ => (p.1, p.2 / (ps.map Prod.snd).sum))
      = fun p : String × ℚ => p.2 * ((ps.map Prod.snd).sum)⁻¹ := by
    funext p
    simp [div_eq_mul_inv]
  rw [hfun, List.sum_map_mul_right]
  exact mul_inv_cancel₀ h

/-- The weights applied to a subdivided element's sub-materials sum to one
whenever the association resolves (nonzero total share). -/
theorem assocWeights_sum_one (a : MaterialAssoc) (h : isSubdivided a = true)
    (h2 : totalShare a ≠ 0) :
    ((assocWeights a).map Prod.snd).sum = 1 := by
  cases a with
  | direct m => simp [isSubdivided] at h
  | layered layers =>
      simp only [totalShare] at h2
      simp only [assocWeights, if_neg h2]
      exact weighted_share_sum layers h2
  | constituent parts =>
      simp only [totalShare] at h2
      simp only [assocWeights, if_neg h2]
      exact weighted_share_sum parts h2

/-- A unique match resolves to the identifier of a list member. -/
theorem uniqueMatch_mem (l : List DatabaseEntry) (i : String)
    (h : uniqueMatch l = some i) : ∃ e ∈ l, e.id = i := by
  match l with
  | [] => simp [uniqueMatch] at h
  | [e] =>
      refine ⟨e, by simp, ?_⟩
      simpa [uniqueMatch] using h
  | _ :: _ :: _ => simp [uniqueMatch] at h

/-- A unique match over a filtered database is an identifier of the database. -/
theorem uniqueMatch_filter_mem (db : List DatabaseEntry) (p : DatabaseEntry → Bool)
    (i : String) (h : uniqueMatch (db.filter p) = some i) : ∃ e ∈ db, e.id = i := by
  obtain ⟨e, he, hid⟩ := uniqueMatch_mem (db.filter p) i h
  exact ⟨e, (List.mem_filter.1 he).1, hid⟩

/-- Every identifier produced by the matcher chain exists in the database. -/
theorem matchMaterial_mem (db : List DatabaseEntry) (name i : String)
    (h : matchMaterial db name = some i) : ∃ e ∈ db, e.id = i := by
  unfold matchMaterial at h
  cases h1 : exactMatcher db name with
  | some j =>
      rw [h1] at h
      cases h
      exact uniqueMatch_filter_mem db _ _ h1
  | none =>
      rw [h1] at h
      cases h2 : fuzzyMatcher db name with
      | some j =>
          rw [h2] at h
          cases h
          exact uniqueMatch_filter_mem db _ _ h2
      | none =>
          rw [h2] at h
          unfold synonymMatcher at h
          cases h3 : lookupId synonymTable (String.mk (lowerName name)) with
          | none => rw [h3] at h; cases h
          | some canon =>
              rw [h3] at h
              exact uniqueMatch_filter_mem db _ _ h

/-! ## Claim theorems -/

/-- Claim C1: for every `run_analysis` result and indicator, the global total
equals the sum over materials of that material's per-indicator impact, with no
cross-indicator interaction; and the weights a layered/constituent association
applies to its sub-materials sum to 1 whenever the association resolves. -/
theorem analysis_totals_additive_and_shares_sum_one
    (elements : List Element) (mapping : Mapping) (db : List DatabaseEntry)
    (ind : String) (a : MaterialAssoc)
    (hsub : isSubdivided a = true) (hres : totalShare a ≠ 0) :
    getAmount (run_analysis elements mapping db).totals ind
      = sumPerMaterial (run_analysis elements mapping db).perMaterialImpacts ind
    ∧ ((assocWeights a).map Prod.snd).sum = 1 := by
  refine ⟨?_, assocWeights_sum_one a hsub hres⟩
  have hinit : Tracks initialState.perMaterialImpacts initialState.totals := by
    intro i
    simp [initialState, getAmount, sumPerMaterial]
  have hfold := foldl_preserve
    (fun s : AnalysisState => Tracks s.perMaterialImpacts s.totals)
    (processElement mapping db)
    (fun s e hp => tracks_processElement mapping db s e hp) elements initialState hinit
  exact hfold ind

/-- Witness for C1 at a concrete empty model, indicator and layered association. -/
theorem analysis_totals_additive_and_shares_sum_one_witness :
    getAmount (run_analysis [] [] []).totals "gwp"
      = sumPerMaterial (run_analysis [] [] []).perMaterialImpacts "gwp"
    ∧ ((assocWeights (MaterialAssoc.layered [("Insulation", 1)])).map Prod.snd).sum = 1 :=
  analysis_totals_additive_and_shares_sum_one [] [] [] "gwp"
    (MaterialAssoc.layered [("Insulation", 1)]) rfl (by simp [totalShare])

/-- A database with one volume-based entry, and a baseline already mapped to it. -/
def exampleDb : List DatabaseEntry := [⟨"KBOB_X", "Generic", none, .volume, []⟩]

/-- Baseline mapping used by the optioneering examples. -/
def exampleBase : Mapping := [("Mat", "KBOB_X")]

/-- A no-op substitution rule: replaces a mapping with itself. -/
def exampleRule : SubstitutionRule := ⟨"Opt", "option", [("Mat", "KBOB_X")]⟩

/-- An optioneering engine holding the single no-op rule. -/
def exampleEngine : IfcLCAOptioneering := ⟨[], exampleDb, exampleBase, [exampleRule], []⟩

/-- Claim C2 (amended): a substitution rule whose scenario mapping is
identical to the baseline mapping, and whose substitution targets all exist in
the database, yields a successful ScenarioResult in `run()` whose deltas are
all exactly 0. -/
theorem noop_substitution_zero_delta
    (o : IfcLCAOptioneering) (rule : SubstitutionRule)
    (hmem : rule ∈ o.rules)
    (hnoop : applyOverrides o.baseline rule.substitutions = o.baseline)
    (htargets : rule.substitutions.find?
      (fun p => (lookupEntry o.database p.2).isNone) = none) :
    (⟨rule.name, .success o.baselineResult
        (deltaList o.baselineResult.totals o.baselineResult.totals)⟩
      : ScenarioResult) ∈ o.run
    ∧ ∀ p ∈ deltaList o.baselineResult.totals o.baselineResult.totals, p.2 = 0 := by
  constructor
  · have hsc : ruleScenario rule ∈ scenariosOf o :=
      List.mem_append_left _ (List.mem_map_of_mem ruleScenario hmem)
    have heval : evalScenario o.model o.database o.baseline o.baselineResult.totals
        (ruleScenario rule)
        = ⟨rule.name, .success o.baselineResult
            (deltaList o.baselineResult.totals o.baselineResult.totals)⟩ := by
      simp only [evalScenario, ruleScenario, htargets, hnoop]
      rfl
    have hmem2 := List.mem_map_of_mem
      (evalScenario o.model o.database o.baseline o.baselineResult.totals) hsc
    rw [heval] at hmem2
    exact hmem2
  · intro p hp
    simp only [deltaList, List.mem_map] at hp
    obtain ⟨i, -, rfl⟩ := hp
    simp

/-- Witness for C2 (amended) at the concrete no-op engine. -/
theorem noop_substitution_zero_delta_witness :
    (⟨"Opt", ScenarioOutcome.success exampleEngine.baselineResult
        (deltaList exampleEngine.baselineResult.totals exampleEngine.baselineResult.totals)⟩
      : ScenarioResult) ∈ exampleEngine.run :=
  (noop_substitution_zero_delta exampleEngine exampleRule (by decide) (by decide)
    (by decide)).1

/-- A baseline that maps a material to an identifier absent from the database. -/
def staleBase : Mapping := [("X", "BAD")]

/-- A rule repeating the stale binding: its scenario mapping equals the
baseline, yet its target is missing from the database. -/
def staleRule : SubstitutionRule := ⟨"noop", "", [("X", "BAD")]⟩

/-- Engine over an empty model and an empty database with the stale rule. -/
def staleEngine : IfcLCAOptioneering := ⟨[], [], staleBase, [staleRule], []⟩

/-- Counterexample to C2 as stated: the rule's scenario mapping is identical
to the baseline, yet `run()` records the scenario as a failed ScenarioResult
(`DatabaseMissError`), not as a result with zero deltas, because the repeated
substitution target is absent from the database. -/
theorem noop_substitution_counterexample :
    applyOverrides staleEngine.baseline staleRule.substitutions = staleEngine.baseline
    ∧ staleEngine.run = [⟨"noop", .failure (.databaseMiss "BAD")⟩]
    ∧ staleEngine.run.all (fun sr => !sr.outcome.isSuccess) = true :=
  ⟨by decide, by decide, by decide⟩

/-- Claim C3: discovery on any accessible model returns records sorted by
material name case-insensitively, with usage counts summing to the number of
(element, material) contributing pairs. -/
theorem discover_sorted_and_counts (m : Model) (h : m.accessible = true) :
    discoverMaterialsE m = Except.ok (discover_materials m.elements)
    ∧ List.Sorted recLe (discover_materials m.elements)
    ∧ ((discover_materials m.elements).map MaterialRecord.elements).sum
        = numContributingPairs m.elements :=
  ⟨by simp [discoverMaterialsE, h], discover_materials_sorted m.elements,
    countsSum_discover m.elements⟩

/-- A one-element accessible model. -/
def exampleModel : Model := ⟨true, [⟨"e1", "wall", .direct "Brick", ⟨.volume, 1⟩⟩]⟩

/-- Witness for C3 at the concrete one-element model. -/
theorem discover_sorted_and_counts_witness :
    discoverMaterialsE exampleModel = Except.ok (discover_materials exampleModel.elements)
    ∧ List.Sorted recLe (discover_materials exampleModel.elements)
    ∧ ((discover_materials exampleModel.elements).map MaterialRecord.elements).sum
        = numContributingPairs exampleModel.elements :=
  discover_sorted_and_counts exampleModel rfl

/-- Claim C4: the auto-mapping omits materials that failed to match (no
placeholder bindings) and every mapped identifier exists in the database. -/
theorem auto_map_omits_unmapped_and_targets_exist
    (materials : List MaterialRecord) (db : List DatabaseEntry) (mat i : String) :
    ((mat, i) ∈ auto_map_materials materials db →
      matchMaterial db mat = some i ∧ ∃ e ∈ db, e.id = i)
    ∧ (matchMaterial db mat = none → (mat, i) ∉ auto_map_materials materials db) := by
  constructor
  · intro h
    obtain ⟨m, hm, hf⟩ := List.mem_filterMap.1 h
    obtain ⟨j, hj, hji⟩ := Option.map_eq_some'.1 hf
    rw [Prod.mk.injEq] at hji
    obtain ⟨rfl, rfl⟩ := hji
    exact ⟨hj, matchMaterial_mem db m.name j hj⟩
  · intro hn h
    obtain ⟨m, hm, hf⟩ := List.mem_filterMap.1 h
    obtain ⟨j, hj, hji⟩ := Option.map_eq_some'.1 hf
    rw [Prod.mk.injEq] at hji
    obtain ⟨rfl, rfl⟩ := hji
    rw [hn] at hj
    cases hj

/-- Discovered materials used by the mapper examples. -/
def exampleMaterials : List MaterialRecord := [⟨"Concrete", 2, "direct", ["wall"]⟩]

/-- A database whose single entry matches "Concrete" exactly. -/
def exampleMatchDb : List DatabaseEntry :=
  [⟨"KBOB_CONCRETE", "Concrete", some 2300, .mass, [("gwp", 1)]⟩]

/-- Witness for C4 at a concrete successful mapping. -/
theorem auto_map_omits_unmapped_witness :
    matchMaterial exampleMatchDb "Concrete" = some "KBOB_CONCRETE" :=
  ((auto_map_omits_unmapped_and_targets_exist exampleMaterials exampleMatchDb
      "Concrete" "KBOB_CONCRETE").1 (by decide)).1

/-- Claim C5: `auto_map_materials` is deterministic and pure: two invocations
on equal (materials, database) inputs return the same mapping, and each call
returns its input state unchanged. -/
theorem auto_map_deterministic_and_pure (s₁ s₂ : MapperState)
    (h1 : s₁.materials = s₂.materials) (h2 : s₁.database = s₂.database) :
    (autoMapCall s₁).1 = (autoMapCall s₂).1
    ∧ (autoMapCall s₁).2 = s₁ ∧ (autoMapCall s₂).2 = s₂ := by
  refine ⟨?_, rfl, rfl⟩
  simp [autoMapCall, h1, h2]

/-- Concrete mapper input state. -/
def exampleMapperState : MapperState := ⟨exampleMaterials, exampleMatchDb⟩

/-- Witness for C5 at the concrete mapper state. -/
theorem auto_map_deterministic_and_pure_witness :
    (autoMapCall exampleMapperState).1 = (autoMapCall exampleMapperState).1
    ∧ (autoMapCall exampleMapperState).2 = exampleMapperState
    ∧ (autoMapCall exampleMapperState).2 = exampleMapperState :=
  auto_map_deterministic_and_pure exampleMapperState exampleMapperState rfl rfl

/-- Claim C6: normalization fails with `UnitConversionError` exactly when the
entry is per mass, the quantity is a volume, and the density is missing or
zero; a nonzero density converts volume to mass; area/length quantities pass
through exactly when the entry is defined in that unit, else unit-mismatch. -/
theorem normalize_unit_conversion (entry : DatabaseEntry) (kind : QKind) (q : ℚ) :
    (normalizeQuantity entry kind q = .error .unitConversionError ↔
      entry.unit = .mass ∧ kind = .volume
        ∧ (entry.density = none ∨ entry.density = some 0))
    ∧ (∀ d : ℚ, entry.unit = .mass → kind = .volume → entry.density = some d →
        d ≠ 0 → normalizeQuantity entry kind q = .ok (q * d))
    ∧ (kind = .area →
        ((normalizeQuantity entry kind q = .ok q ↔ entry.unit = .area)
        ∧ (entry.unit ≠ .area → normalizeQuantity entry kind q = .error .unitMismatch)))
    ∧ (kind = .length →
        ((normalizeQuantity entry kind q = .ok q ↔ entry.unit = .length)
        ∧ (entry.unit ≠ .length →
            normalizeQuantity entry kind q = .error .unitMismatch))) := by
  obtain ⟨eid, enm, dens, u, fs⟩ := entry
  cases u with
  | mass =>
      cases kind with
      | volume =>
          cases dens with
          | none => simp [normalizeQuantity]
          | some d =>
              by_cases hd : d = 0
              · simp [normalizeQuantity, hd]
              · simp [normalizeQuantity, hd]
      | area => simp [normalizeQuantity]
      | length => simp [normalizeQuantity]
  | volume => cases kind <;> simp [normalizeQuantity]
  | area => cases kind <;> simp [normalizeQuantity]
  | length => cases kind <;> simp [normalizeQuantity]

/-- A per-mass entry with density 2400 used by the conversion witness. -/
def exampleMassEntry : DatabaseEntry :=
  ⟨"KBOB_CONCRETE_MASS", "Concrete mass", some 2400, .mass, [("gwp", 1)]⟩

/-- Witness for C6: a 10 m³ volume against the density-2400 per-mass entry. -/
theorem normalize_unit_conversion_witness :
    normalizeQuantity exampleMassEntry .volume 10 = .ok (10 * 2400) :=
  (normalize_unit_conversion exampleMassEntry .volume 10).2.1 2400 rfl rfl rfl
    (by decide)

/-- Claim C7: the analysis aborts exactly when the model is inaccessible or
the database unavailable; otherwise every resolved pair is accounted for —
contributing plus the by-reason skip counts equal the pair count — and
unmapped-material / database-miss pairs are recorded under their skip reason,
never silently dropped. -/
theorem analysis_skips_recorded_never_aborts (model : Model) (mapping : Mapping)
    (db : Database) :
    ((∃ r, runAnalysisE model mapping db = .ok r) ↔
      (model.accessible = true ∧ db.available = true))
    ∧ (∀ r, runAnalysisE model mapping db = .ok r →
        r.contributing + (r.skippedUnmapped + r.skippedDatabaseMiss
          + r.skippedUnitMismatch + r.skippedMissingDensity)
          = analysisPairCount model.elements)
    ∧ (∀ (st : AnalysisState) (quantity : Quantity) (p : String × ℚ),
        lookupId mapping p.1 = none →
        processPair mapping db.entries quantity st p
          = { st with skippedUnmapped := st.skippedUnmapped + 1 })
    ∧ (∀ (st : AnalysisState) (quantity : Quantity) (p : String × ℚ) (i : String),
        lookupId mapping p.1 = some i → lookupEntry db.entries i = none →
        processPair mapping db.entries quantity st p
          = { st with skippedDatabaseMiss := st.skippedDatabaseMiss + 1 }) := by
  refine ⟨?_, ?_, ?_, ?_⟩
  · constructor
    · rintro ⟨r, hr⟩
      by_cases ha : model.accessible
      · by_cases hb : db.available
        · exact ⟨ha, hb⟩
        · simp [runAnalysisE, ha, hb] at hr
      · simp [runAnalysisE, ha] at hr
    · rintro ⟨ha, hb⟩
      exact ⟨run_analysis model.elements mapping db.entries,
        by simp [runAnalysisE, ha, hb]⟩
  · intro r hr
    by_cases ha : model.accessible
    · by_cases hb : db.available
      · have hfold : runAnalysisE model mapping db
            = .ok (run_analysis model.elements mapping db.entries) := by
          simp [runAnalysisE, ha, hb]
        rw [hfold] at hr
        injection hr with hr2
        subst hr2
        have hcount := processedCount_foldl mapping db.entries model.elements initialState
        have hzero : processedCount initialState = 0 := rfl
        rw [hzero] at hcount
        simp only [processedCount] at hcount
        simp only [run_analysis]
        omega
      · simp [runAnalysisE, ha, hb] at hr
    · simp [runAnalysisE, ha] at hr
  · intro st quantity p hmapmiss
    simp only [processPair, hmapmiss]
  · intro st quantity p i hmap hdbm
    simp only [processPair, hmap, hdbm]

/-- Witness for C7: a pair over an unmapped material is recorded as an
unmapped skip. -/
theorem analysis_skips_recorded_witness :
    processPair [] [] ⟨QKind.volume, 1⟩ initialState ("Brick", 1)
      = { initialState with skippedUnmapped := initialState.skippedUnmapped + 1 } :=
  (analysis_skips_recorded_never_aborts ⟨true, []⟩ [] ⟨true, []⟩).2.2.1
    initialState ⟨QKind.volume, 1⟩ ("Brick", 1) rfl

/-- Claim C8: a scenario whose substitution targets a missing database
identifier is recorded as a failed ScenarioResult with the miss attached, and
every other scenario before and after it is still evaluated and returned. -/
theorem scenario_failure_does_not_abort_rest
    (model : List Element) (db : List DatabaseEntry) (base : Mapping)
    (rules₁ rules₂ : List SubstitutionRule) (r : SubstitutionRule)
    (comps : List MaterialComparison) (mat tgt : String)
    (hbad : r.substitutions.find? (fun p => (lookupEntry db p.2).isNone)
      = some (mat, tgt)) :
    (⟨model, db, base, rules₁ ++ r :: rules₂, comps⟩ : IfcLCAOptioneering).run
      = runScenarios model db base (run_analysis model base db).totals
          (rules₁.map ruleScenario)
        ++ ⟨r.name, .failure (.databaseMiss tgt)⟩
          :: runScenarios model db base (run_analysis model base db).totals
              (rules₂.map ruleScenario ++ (comps.map comparisonScenarios).flatten) := by
  simp only [IfcLCAOptioneering.run, IfcLCAOptioneering.baselineResult, scenariosOf,
    runScenarios, List.map_append, List.map_cons, List.cons_append, List.append_assoc]
  congr 1
  simp only [evalScenario, ruleScenario, hbad]

/-- The rule whose substitution target is absent from every database. -/
def badRule : SubstitutionRule := ⟨"Bad", "", [("X", "MISSING")]⟩

/-- Witness for C8 at a concrete engine holding only the failing rule. -/
theorem scenario_failure_does_not_abort_rest_witness :
    (⟨[], [], [], [badRule], []⟩ : IfcLCAOptioneering).run
      = runScenarios [] [] [] (run_analysis [] [] []).totals
          (List.map ruleScenario [])
        ++ ⟨"Bad", .failure (.databaseMiss "MISSING")⟩
          :: runScenarios [] [] [] (run_analysis [] [] []).totals
              (List.map ruleScenario [] ++ (List.map comparisonScenarios []).flatten) :=
  scenario_failure_does_not_abort_rest [] [] [] [] [] badRule [] "X" "MISSING"
    (by decide)

/-- Claim C9: the entry point is constructible from a model alone (database
optional and irrelevant to discovery), discovery succeeds on it for accessible
models, and the printed description of each record is determined by its
exposed name/elements/type fields. -/
theorem ifclca_model_only_constructible (m : Model) (db : Database) :
    (IfcLCA.ofModel m).database = none
    ∧ (m.accessible = true →
        (IfcLCA.ofModel m).discoverMaterials
          = Except.ok (discover_materials m.elements))
    ∧ ((⟨m, some db⟩ : IfcLCA).discoverMaterials = (IfcLCA.ofModel m).discoverMaterials)
    ∧ (∀ r ∈ discover_materials m.elements,
        describeMaterial r = describeMaterial ⟨r.name, r.elements, r.type, []⟩) := by
  refine ⟨rfl, ?_, rfl, ?_⟩
  · intro h
    simp [IfcLCA.discoverMaterials, IfcLCA.ofModel, discoverMaterialsE, h]
  · intro r _
    rfl

/-- Witness for C9 at the concrete one-element model. -/
theorem ifclca_model_only_constructible_witness :
    (IfcLCA.ofModel exampleModel).database = none
    ∧ (IfcLCA.ofModel exampleModel).discoverMaterials
        = Except.ok (discover_materials exampleModel.elements) :=
  ⟨(ifclca_model_only_constructible exampleModel ⟨true, []⟩).1,
    (ifclca_model_only_constructible exampleModel ⟨true, []⟩).2.1 rfl⟩

/-- Claim C10: the Optioneering Engine is constructed from (model, database,
baseline mapping) only; the baseline it computes deltas against is recomputed
internally and equals `run_analysis` on the same inputs, and every successful
scenario's deltas are taken against exactly that recomputed baseline. -/
theorem optioneering_baseline_recomputed
    (model : List Element) (db : List DatabaseEntry) (base : Mapping)
    (rules : List SubstitutionRule) (comps : List MaterialComparison) :
    IfcLCAOptioneering.init model db base = ⟨model, db, base, [], []⟩
    ∧ (⟨model, db, base, rules, comps⟩ : IfcLCAOptioneering).baselineResult
        = run_analysis model base db
    ∧ ∀ sr ∈ (⟨model, db, base, rules, comps⟩ : IfcLCAOptioneering).run,
        ∀ res ds, sr.outcome = ScenarioOutcome.success res ds →
          ds = deltaList res.totals (run_analysis model base db).totals := by
  refine ⟨rfl, rfl, ?_⟩
  intro sr hsr res ds hout
  simp only [IfcLCAOptioneering.run, runScenarios, List.mem_map] at hsr
  obtain ⟨sc, hsc, rfl⟩ := hsr
  revert hout
  unfold evalScenario
  cases hf : sc.substitutions.find? (fun p => (lookupEntry db p.2).isNone) with
  | some p =>
      intro hout
      simp at hout
  | none =>
      intro hout
      simp only [ScenarioResult.mk.injEq] at hout
      simp at hout
      obtain ⟨rfl, rfl⟩ := hout
      rfl

/-- Witness for C10: the empty-model no-op scenario's deltas are the deltas
against the internally recomputed baseline. -/
theorem optioneering_baseline_recomputed_witness :
    ([] : List (String × ℚ))
      = deltaList (run_analysis ([] : List Element) exampleBase exampleDb).totals
          (run_analysis ([] : List Element) exampleBase exampleDb).totals :=
  (optioneering_baseline_recomputed [] exampleDb exampleBase [exampleRule] []).2.2
    ⟨"Opt", ScenarioOutcome.success (run_analysis [] exampleBase exampleDb) []⟩
    (by decide) (run_analysis [] exampleBase exampleDb) [] (by decide)
